import Mathlib

/-!
Verification development for the FireMarshal workload manager
(`sw-manager.py`): a shallow embedding of its dependency-graph builder
(`addDep`, `buildDepGraph`), its image-assembly pipeline (`makeImage`),
the overlay applicator (`applyFiles`), the binary builder (`makeBin`),
the launchers (`launchSpike`) and the job-resolution logic of `main`,
together with theorems about them.

Python dictionaries with presence-checked keys are embedded as
structures with `Option` fields; a read of an absent key (a Python
`KeyError`) is embedded as `Except.error`.  External processes
(`os.walk`, `os.path.isdir`, `os.path.exists`) are parameters of the
embedding, collected in a `Filesystem` oracle.
-/

namespace SwManager

/-- One entry of a `files` list: a `FileSpec(src, dst)` pair as used by
`applyFiles` and the dependency walker in `addDep`. -/
structure FileSpec where
  src : String
  dst : String
deriving DecidableEq

/-- The `runSpec` attribute: exactly the two attributes the code reads,
`spec.command` and `spec.path`, each of which may be `None`. -/
structure RunSpec where
  command : Option String
  path : Option String
deriving DecidableEq

/-- A resolved workload descriptor, one per workload or job.  Each
`Option` field embeds a key whose presence the code tests with
`'key' in config`; the key strings of the source are `bin`, `img`,
`base-img`, `linux-config`, `initramfs`, `distro`, `files`,
`host_init`, `init`, `runSpec`, `cfg-file`, `workdir`.  The `initramfs`
key is treated as a boolean (`true` iff the key is present), matching
the data model of the resolved configs. -/
structure WorkloadConfig where
  name : String
  bin : String
  img : Option String
  baseImg : Option String
  linuxConfig : Option String
  initramfs : Bool
  distro : String
  files : Option (List FileSpec)
  hostInit : Option String
  init : Option String
  runSpec : Option RunSpec
  cfgFile : Option String
  workdir : String
deriving DecidableEq

/-- Oracle for the host filesystem calls the code makes: `os.path.isdir`,
`os.walk` (flattened to the list of all files strictly below a
directory, in walk order) and `os.path.exists`. -/
structure Filesystem where
  isDir : String → Bool
  walkFiles : String → List String
  fileExists : String → Bool

/-- A filesystem oracle on which no path is a directory and no path
exists; used for concrete evaluations of the graph builder. -/
def fsEmpty : Filesystem :=
  { isDir := fun _ => false, walkFiles := fun _ => [], fileExists := fun _ => false }

/-- A filesystem oracle on which every path exists and none is a
directory; used for concrete evaluations of the pipeline. -/
def fsAll : Filesystem :=
  { isDir := fun _ => false, walkFiles := fun _ => [], fileExists := fun _ => true }

/-- The action attached to a build task, identifying which function the
executor would call and with which arguments. -/
inductive BuildAction where
  | makeBinAct (c : WorkloadConfig) (initramfsFlag : Bool)
  | makeImageAct (c : WorkloadConfig)
  | buildBaseImageAct (distroName : String)
deriving DecidableEq

/-- One `doit` task dictionary as appended to `loader.workloads`:
`name`, `actions`, `targets`, `file_dep`, `task_dep`; distro base-image
tasks carry an `uptodate` entry instead of dependency lists, recorded
here by the `uptodateDelegated` flag. -/
structure BuildTask where
  name : String
  action : BuildAction
  targets : List String
  file_dep : List String
  task_dep : List String
  uptodateDelegated : Bool
deriving DecidableEq

/-- Expansion of one overlay source for dependency tracking: a
directory is expanded recursively via `os.walk`, anything else is the
source string itself (lines 133-138 of the source). -/
def expandSpec (fs : Filesystem) (f : FileSpec) : List String :=
  if fs.isDir f.src then fs.walkFiles f.src else [f.src]

/-- All file-level dependencies contributed by a `files` list, in
listed order (the loop at lines 131-138 of the source). -/
def overlayDeps (fs : Filesystem) (specs : List FileSpec) : List String :=
  (specs.map (expandSpec fs)).flatten

/-- The binary task appended unconditionally at lines 98-104 of the
source: file-deps are the linux config when present, task-deps empty. -/
def binTask (config : WorkloadConfig) : BuildTask :=
  { name := config.bin
    action := BuildAction.makeBinAct config false
    targets := [config.bin]
    file_dep := (match config.linuxConfig with
                 | some lc => [lc]
                 | none => [])
    task_dep := []
    uptodateDelegated := false }

/-- The initramfs binary task appended at lines 115-121 of the source
when the `initramfs` key is present: file-deps are the image (plus the
linux config when present), task-deps are the image task. -/
def initramfsTask (config : WorkloadConfig) (img : String) : BuildTask :=
  { name := config.bin ++ "-initramfs"
    action := BuildAction.makeBinAct config true
    targets := [config.bin ++ "-initramfs"]
    file_dep := [img] ++ (match config.linuxConfig with
                          | some lc => [lc]
                          | none => [])
    task_dep := [img]
    uptodateDelegated := false }

/-- The file-dependency list of the image task, in the order the source
builds it at lines 126-145: base image, overlay expansion, init script,
run-spec path, config file. -/
def imageFileDeps (fs : Filesystem) (config : WorkloadConfig) : List String :=
  (match config.baseImg with
   | some b => [b]
   | none => [])
  ++ (match config.files with
      | some fl => overlayDeps fs fl
      | none => [])
  ++ (match config.init with
      | some s => [s]
      | none => [])
  ++ (match config.runSpec with
      | some rs => (match rs.path with
                    | some p => [p]
                    | none => [])
      | none => [])
  ++ (match config.cfgFile with
      | some cf => [cf]
      | none => [])

/-- The task-dependency list of the image task (lines 127-128 and 141
of the source): the base image task when `base-img` is present, and
the binary task when `init` is present. -/
def imageTaskDeps (config : WorkloadConfig) : List String :=
  (match config.baseImg with
   | some b => [b]
   | none => [])
  ++ (match config.init with
      | some _ => [config.bin]
      | none => [])

/-- The image task appended at lines 147-153 of the source. -/
def imageTask (fs : Filesystem) (config : WorkloadConfig) (img : String) : BuildTask :=
  { name := img
    action := BuildAction.makeImageAct config
    targets := [img]
    file_dep := imageFileDeps fs config
    task_dep := imageTaskDeps config
    uptodateDelegated := false }

/-- The image tasks contributed by one config: one task when the `img`
key is present, none otherwise (the `if 'img' in config` guard at line
126). -/
def imageTasks (fs : Filesystem) (config : WorkloadConfig) : List BuildTask :=
  match config.img with
  | some i => [imageTask fs config i]
  | none => []

/-- Embedding of `addDep` (lines 90-153 of the source): the list of
tasks appended to the loader for one config.  The binary task is
appended unconditionally; when the `initramfs` key is present the
initramfs task reads `config['img']`, which is a `KeyError` when the
`img` key is absent; the image task is appended when `img` is
present. -/
def addDep (fs : Filesystem) (config : WorkloadConfig) : Except String (List BuildTask) :=
  if config.initramfs then
    match config.img with
    | none => Except.error ("KeyError: img")
    | some i =>
        Except.ok ([binTask config, initramfsTask config i] ++ imageTasks fs config)
  else
    Except.ok ([binTask config] ++ imageTasks fs config)

/-- Tester for image tasks (the tasks whose action is `makeImage`). -/
def isImageTask (t : BuildTask) : Bool :=
  match t.action with
  | BuildAction.makeImageAct _ => true
  | _ => false

/-- Tester for initramfs binary tasks (the tasks whose action is
`makeBin` with `initramfs=True`). -/
def isInitramfsTask (t : BuildTask) : Bool :=
  match t.action with
  | BuildAction.makeBinAct _ b => b
  | _ => false

/-- Decides whether an `Except` value is an error. -/
def isError {α : Type} : Except String α → Bool
  | Except.error _ => true
  | Except.ok _ => false

/-- Result of running `makeBin`: either a binary copied to the given
path, or nothing (the config has no `linux-config` and a `bare` distro,
so the binary is assumed pre-built and the function is a no-op). -/
inductive BinResult where
  | binBuilt (path : String)
  | prebuiltAssumed
deriving DecidableEq

/-- Embedding of `makeBin` (lines 271-300 of the source).  With a
`linux-config` present the kernel and bootloader are built and the
result copied to `config['bin']` (suffixed `-initramfs` when the flag
is set; the initramfs path reads `config['img']`, a `KeyError` when
absent).  Without a `linux-config`, a distro other than `bare` raises
`ValueError`; otherwise nothing is done. -/
def makeBin (config : WorkloadConfig) (initramfsFlag : Bool) : Except String BinResult :=
  match config.linuxConfig with
  | some _ =>
      if initramfsFlag then
        match config.img with
        | some _ => Except.ok (BinResult.binBuilt (config.bin ++ "-initramfs"))
        | none => Except.error ("KeyError: img")
      else
        Except.ok (BinResult.binBuilt config.bin)
  | none =>
      if config.distro = "bare" then
        Except.ok BinResult.prebuiltAssumed
      else
        Except.error ("ValueError: no linux config defined")

/-- Embedding of `launchSpike` (lines 214-219 of the source): returns
the spike command line that is run, or the `ValueError` raised for
disk-based configurations. -/
def launchSpike (config : WorkloadConfig) (initramfsFlag : Bool) : Except String (List String) :=
  if initramfsFlag || config.img.isNone then
    Except.ok (["spike", "-p4", "-m4096", config.bin ++ "-initramfs"])
  else
    Except.error ("ValueError: spike does not support disk-based configurations")

/-- Modelled from the spec: `genRunScript` (from the external `util`
module) generates a fresh wrapper script around an inline command and
returns its path.  Represented as an injective tagging of the
command. -/
def genRunScript (command : String) : String :=
  "generated-run-script-for-" ++ command

/-- Modelled from the spec: `builder.generateBootScriptOverlay` (an
external builder capability) wraps a script path into an overlay
directory that installs the script as the boot hook; passing `None`
produces an overlay that removes any previously installed boot hook.
An overlay is represented by the boot hook it installs (`none`
clears). -/
def generateBootScriptOverlay (scriptPath : Option String) : Option String :=
  scriptPath

/-- Abstract state of a filesystem image as mutated by the pipeline:
the currently installed boot-script hook and the file overlays applied
so far. -/
structure ImageState where
  bootHook : Option String
  extraFiles : List FileSpec
deriving DecidableEq

/-- Effect of `applyOverlay` with a boot-script overlay: the boot hook
becomes the one the overlay installs. -/
def applyOverlayImage (st : ImageState) (hook : Option String) : ImageState :=
  { st with bootHook := hook }

/-- Effect of `applyFiles` with a plain file list: the files are copied
on top of the image. -/
def applyFilesImage (st : ImageState) (files : List FileSpec) : ImageState :=
  { st with extraFiles := st.extraFiles ++ files }

/-- Observable events of one `makeImage` run, in execution order. -/
inductive Event where
  | copyBase (src : String) (dst : String)
  | hostInitRun (script : String)
  | filesApplied (img : String) (files : List FileSpec)
  | overlayApplied (img : String) (hook : Option String)
  | qemuLaunched (bin : String)
deriving DecidableEq

/-- Tester for the emulator-boot event. -/
def isLaunchEvent (e : Event) : Bool :=
  match e with
  | Event.qemuLaunched _ => true
  | _ => false

/-- The host-init state of the pipeline (lines 307-312 of the source):
when `host_init` is present the script must exist and is run on the
host. -/
def hostInitStep (fs : Filesystem) (config : WorkloadConfig) : Except String (List Event) :=
  match config.hostInit with
  | none => Except.ok []
  | some hs =>
      if fs.fileExists hs then
        Except.ok [Event.hostInitRun hs]
      else
        Except.error ("ValueError: host_init script " ++ hs ++ " not found.")

/-- The file-overlay state of the pipeline (lines 314-316 of the
source): when `files` is present, `applyFiles` copies them onto the
image. -/
def filesStep (config : WorkloadConfig) (img : String) (st : ImageState) :
    List Event × ImageState :=
  match config.files with
  | none => ([], st)
  | some fl => ([Event.filesApplied img fl], applyFilesImage st fl)

/-- The target-init state of the pipeline (lines 318-331 of the
source): when `init` is present the script must exist; its boot-script
overlay is applied, qemu is booted synchronously once, and the
clearing overlay `generateBootScriptOverlay(None)` is applied. -/
def targetInitStep (fs : Filesystem) (config : WorkloadConfig) (img : String)
    (st : ImageState) : Except String (List Event × ImageState) :=
  match config.init with
  | none => Except.ok ([], st)
  | some s =>
      if fs.fileExists s then
        Except.ok
          ([Event.overlayApplied img (generateBootScriptOverlay (some s)),
            Event.qemuLaunched config.bin,
            Event.overlayApplied img (generateBootScriptOverlay none)],
           applyOverlayImage (applyOverlayImage st (generateBootScriptOverlay (some s)))
             (generateBootScriptOverlay none))
      else
        Except.error ("ValueError: init script " ++ s ++ " not found.")

/-- Resolution of a run spec to a concrete script path (lines 334-340
of the source): an inline command is wrapped by `genRunScript`,
otherwise `spec.path` is used; when both are `None` the code passes
`None` to `os.path.exists`, a `TypeError`. -/
def resolveRunSpec (spec : RunSpec) : Except String String :=
  match spec.command with
  | some cmd => Except.ok (genRunScript cmd)
  | none =>
      match spec.path with
      | some p => Except.ok p
      | none => Except.error ("TypeError: run spec has neither command nor path")

/-- The run-spec state of the pipeline (lines 333-346 of the source):
the resolved script must exist; its boot-script overlay is applied and
is not cleared. -/
def runSpecStep (fs : Filesystem) (config : WorkloadConfig) (img : String)
    (st : ImageState) : Except String (List Event × ImageState) :=
  match config.runSpec with
  | none => Except.ok ([], st)
  | some spec =>
      match resolveRunSpec spec with
      | Except.error e => Except.error e
      | Except.ok sp =>
          if fs.fileExists sp then
            Except.ok
              ([Event.overlayApplied img (generateBootScriptOverlay (some sp))],
               applyOverlayImage st (generateBootScriptOverlay (some sp)))
          else
            Except.error ("ValueError: run script " ++ sp ++ " not found.")

/-- Embedding of `makeImage` (lines 302-346 of the source): seed the
image by copying `base-img` over `img` (a `KeyError` when either key is
absent), then run the optional host-init, file-overlay, target-init
and run-spec states in that order.  Returns the event trace and the
final image state; `baseImage` is the state of the base image that the
seed copy starts from. -/
def makeImage (fs : Filesystem) (config : WorkloadConfig) (baseImage : ImageState) :
    Except String (List Event × ImageState) :=
  match config.baseImg, config.img with
  | some b, some i =>
      (match hostInitStep fs config with
       | Except.error e => Except.error e
       | Except.ok e1 =>
           (match filesStep config i baseImage with
            | (e2, s2) =>
                (match targetInitStep fs config i s2 with
                 | Except.error e => Except.error e
                 | Except.ok (e3, s3) =>
                     (match runSpecStep fs config i s3 with
                      | Except.error e => Except.error e
                      | Except.ok (e4, s4) =>
                          Except.ok
                            ([Event.copyBase b i] ++ e1 ++ e2 ++ e3 ++ e4, s4)))))
  | _, _ => Except.error ("KeyError: base-img or img")

/-- The host-init segment of a successful trace: one event when
`host_init` is present, none otherwise. -/
def hostSeg (config : WorkloadConfig) : List Event :=
  match config.hostInit with
  | some hs => [Event.hostInitRun hs]
  | none => []

/-- The file-overlay segment of a successful trace: one event when
`files` is present, none otherwise. -/
def filesSeg (config : WorkloadConfig) (img : String) : List Event :=
  match config.files with
  | some fl => [Event.filesApplied img fl]
  | none => []

/-- The target-init segment of a successful trace: apply the init
overlay, boot qemu, apply the clearing overlay. -/
def initSeg (config : WorkloadConfig) (img : String) : List Event :=
  match config.init with
  | some s =>
      [Event.overlayApplied img (generateBootScriptOverlay (some s)),
       Event.qemuLaunched config.bin,
       Event.overlayApplied img (generateBootScriptOverlay none)]
  | none => []

/-- The run-spec segment of a successful trace: apply the overlay of
the resolved run script. -/
def runSegOf (config : WorkloadConfig) (img : String) : List Event :=
  match config.runSpec with
  | some spec =>
      match resolveRunSpec spec with
      | Except.ok sp => [Event.overlayApplied img (generateBootScriptOverlay (some sp))]
      | Except.error _ => []
  | none => []

/-- The boot hook present on the delivered image after a successful
`makeImage` run: the resolved run script when `runSpec` is present,
cleared when only `init` is present, and otherwise whatever the base
image carried. -/
def finalBootHook (config : WorkloadConfig) (baseImage : ImageState) : Option String :=
  match config.runSpec with
  | some spec =>
      match resolveRunSpec spec with
      | Except.ok sp => some sp
      | Except.error _ => none
  | none =>
      match config.init with
      | some _ => none
      | none => baseImage.bootHook

/-- Observable events of one `applyFiles` run. -/
inductive MountEvent where
  | mountCall (img : String)
  | rsyncCall (src : String) (dst : String)
  | umountCall
deriving DecidableEq

/-- The copy loop in the `try` block of `applyFiles` (lines 360-365 of
the source): rsync each spec in order; a failing rsync (decided by the
`copyOk` oracle) raises and ends the loop. -/
def copyLoop (copyOk : FileSpec → Bool) : List FileSpec → List MountEvent × Bool
  | [] => ([], true)
  | f :: rest =>
      if copyOk f then
        match copyLoop copyOk rest with
        | (evs, ok) => (MountEvent.rsyncCall f.src f.dst :: evs, ok)
      else
        ([MountEvent.rsyncCall f.src f.dst], false)

/-- Embedding of `applyFiles` (lines 355-367 of the source): mount the
image, run the copy loop inside `try`, and unmount in the `finally`
block, which runs both when the loop completes and when a copy raises.
Returns the event trace and the overall outcome. -/
def applyFiles (copyOk : FileSpec → Bool) (img : String) (files : List FileSpec) :
    List MountEvent × Except String Unit :=
  match copyLoop copyOk files with
  | (evs, ok) =>
      (MountEvent.mountCall img :: (evs ++ [MountEvent.umountCall]),
       if ok then Except.ok () else Except.error ("CalledProcessError: rsync"))

/-- Effect of one mount event on the held-mount flag. -/
def mountStepFn (m : Bool) (e : MountEvent) : Bool :=
  match e with
  | MountEvent.mountCall _ => true
  | MountEvent.umountCall => false
  | MountEvent.rsyncCall _ _ => m

/-- Whether the fixed mount point is still held after a trace of mount
events has run. -/
def mountedAfter (evs : List MountEvent) : Bool :=
  evs.foldl mountStepFn false

/-- A distro entry as used by the distro loop of `buildDepGraph`
(lines 163-171 of the source). -/
structure DistroCfg where
  name : String
  img : Option String
deriving DecidableEq

/-- A top-level (non-distro) config entry: the base workload and, when
the `jobs` key is present, its named jobs. -/
structure ConfigEntry where
  base : WorkloadConfig
  jobs : Option (List (String × WorkloadConfig))

/-- The complete set of resolved configs handed to the graph builder:
the distro configs and the non-distro config entries. -/
structure ConfigSet where
  distroCfgs : List DistroCfg
  workloadCfgs : List ConfigEntry

/-- The leaf task for a distro base image (lines 166-171 of the
source): no dependencies, up-to-dateness delegated to the external
builder. -/
def distroTask (d : DistroCfg) (img : String) : BuildTask :=
  { name := img
    action := BuildAction.buildBaseImageAct d.name
    targets := [img]
    file_dep := []
    task_dep := []
    uptodateDelegated := true }

/-- Tasks contributed by one non-distro config entry: `addDep` on the
base config, then `addDep` on each job (lines 174-180 of the
source). -/
def entryTasks (fs : Filesystem) (e : ConfigEntry) : Except String (List BuildTask) :=
  match addDep fs e.base with
  | Except.error err => Except.error err
  | Except.ok ts =>
      match e.jobs with
      | none => Except.ok ts
      | some js =>
          (js.mapM (fun p => addDep fs p.snd)).map (fun l => ts ++ l.flatten)

/-- Embedding of `buildDepGraph` (lines 159-182 of the source): the
distro base-image tasks followed by the tasks of every non-distro
config entry and its jobs.  Its only inputs are the resolved configs
and the filesystem. -/
def buildDepGraph (fs : Filesystem) (cfgs : ConfigSet) : Except String (List BuildTask) :=
  (cfgs.workloadCfgs.mapM (entryTasks fs)).map
    (fun l => cfgs.distroCfgs.filterMap (fun d => d.img.map (distroTask d)) ++ l.flatten)

/-- The command-line arguments read after parsing (lines 55-80 of the
source). -/
structure Args where
  configFile : String
  workdir : String
  command : String
  job : String
  initramfsFlag : Bool
  spike : Bool
deriving DecidableEq

/-- The dependency graph used by `handleBuild` (lines 184-185 of the
source): `buildDepGraph(cfgs)` — the parsed arguments are passed to
`handleBuild` but are not an input of graph construction. -/
def handleBuildGraph (fs : Filesystem) (args : Args) (cfgs : ConfigSet) :
    Except String (List BuildTask) :=
  buildDepGraph fs cfgs

/-- Outcome of the job-name resolution in `main` (lines 72-80 of the
source): what was printed, whether the process exited there, whether
`args.func` was then invoked, and the job name left in `args.job`. -/
structure MainOutcome where
  printedJobError : Bool
  printedHelp : Bool
  exited : Bool
  invokedCommand : Bool
  effectiveJob : String
deriving DecidableEq

/-- Embedding of lines 72-80 of `main`: for a `build` or `launch`
command with a job other than `all`, the job name is prefixed with the
base name when the config has jobs; otherwise an error message and the
help text are printed.  No branch exits, and `args.func(args, cfgs)`
runs at line 80 in every case. -/
def resolveJobArg (command : String) (job : String) (entry : ConfigEntry) : MainOutcome :=
  if (command = "build" || command = "launch") && job != "all" then
    match entry.jobs with
    | some _ =>
        { printedJobError := false, printedHelp := false, exited := false,
          invokedCommand := true, effectiveJob := entry.base.name ++ "-" ++ job }
    | none =>
        { printedJobError := true, printedHelp := true, exited := false,
          invokedCommand := true, effectiveJob := job }
  else
    { printedJobError := false, printedHelp := false, exited := false,
      invokedCommand := true, effectiveJob := job }

/-- The config selected by `handleLaunch` (lines 250-255 of the
source): the named job when the config has jobs and a job other than
`all` was requested (a missing name is a `KeyError`), and the base
config otherwise. -/
def selectLaunchConfig (entry : ConfigEntry) (job : String) :
    Except String WorkloadConfig :=
  match entry.jobs with
  | some js =>
      if job != "all" then
        match js.find? (fun p => p.fst == job) with
        | some p => Except.ok p.snd
        | none => Except.error ("KeyError: " ++ job)
      else
        Except.ok entry.base
  | none => Except.ok entry.base

/-! Theorems. -/

/-- Claim C6: every invocation of the overlay applicator that mounts
the image unmounts it on every exit path, including when a copy step
fails: after `applyFiles` returns or raises, the trace ends with the
unmount call and the mount point is no longer held. -/
theorem applyFiles_always_unmounts (copyOk : FileSpec → Bool) (img : String)
    (files : List FileSpec) :
    mountedAfter (applyFiles copyOk img files).fst = false ∧
    (applyFiles copyOk img files).fst.getLast? = some MountEvent.umountCall := by
  unfold applyFiles
  cases h : copyLoop copyOk files with
  | mk evs ok =>
      constructor
      · show mountedAfter (MountEvent.mountCall img :: (evs ++ [MountEvent.umountCall])) = false
        unfold mountedAfter
        rw [List.foldl_cons, List.foldl_append]
        rfl
      · show (MountEvent.mountCall img :: (evs ++ [MountEvent.umountCall])).getLast? =
          some MountEvent.umountCall
        rw [show MountEvent.mountCall img :: (evs ++ [MountEvent.umountCall]) =
            (MountEvent.mountCall img :: evs) ++ [MountEvent.umountCall] from rfl,
          List.getLast?_concat]

/-- Claim C8: the dependency graph built for a `build` command is a
function of the resolved configs alone; the parsed command-line
arguments (target workload, job, flags) are not an input of graph
construction, so any two invocations over the same resolved configs
produce the identical graph. -/
theorem buildDepGraph_target_independent (fs : Filesystem) (a1 a2 : Args)
    (cfgs : ConfigSet) :
    handleBuildGraph fs a1 cfgs = handleBuildGraph fs a2 cfgs := rfl

/-- Claim C10: with no `img` key, `launchSpike` runs the
initramfs-suffixed binary even when the initramfs flag is false, and it
raises exactly when an `img` key is present and the flag is false. -/
theorem launchSpike_no_img (config : WorkloadConfig) (initramfsFlag : Bool) :
    (config.img = none →
      launchSpike config initramfsFlag =
        Except.ok (["spike", "-p4", "-m4096", config.bin ++ "-initramfs"])) ∧
    (isError (launchSpike config initramfsFlag) = true ↔
      (config.img.isSome = true ∧ initramfsFlag = false)) := by
  constructor
  · intro h
    unfold launchSpike
    rw [h]
    simp
  · unfold launchSpike
    cases initramfsFlag <;> cases h : config.img <;> simp [isError, h]

def c10w : WorkloadConfig :=
  { name := "spike-noimg", bin := "wl/bbl", img := none, baseImg := none,
    linuxConfig := none, initramfs := false, distro := "br", files := none,
    hostInit := none, init := none, runSpec := none, cfgFile := none, workdir := "w" }

/-- Witness for claim C10 at a concrete diskless config and a false
initramfs flag. -/
theorem launchSpike_no_img_witness :
    launchSpike c10w false =
      Except.ok (["spike", "-p4", "-m4096", "wl/bbl" ++ "-initramfs"]) :=
  (launchSpike_no_img c10w false).1 rfl

/-- Claim C9: when a job other than `all` is requested but the target
config has no `jobs` key, `main` prints the error message and the help
text, does not exit, and still invokes the requested command, which
then acts on the base workload. -/
theorem main_missing_jobs (command job : String) (entry : ConfigEntry)
    (hcmd : command = "build" ∨ command = "launch") (hjob : job ≠ "all")
    (hnojobs : entry.jobs = none) :
    (resolveJobArg command job entry).printedJobError = true ∧
    (resolveJobArg command job entry).printedHelp = true ∧
    (resolveJobArg command job entry).exited = false ∧
    (resolveJobArg command job entry).invokedCommand = true ∧
    selectLaunchConfig entry ((resolveJobArg command job entry).effectiveJob) =
      Except.ok entry.base := by
  have hres : resolveJobArg command job entry =
      { printedJobError := true, printedHelp := true, exited := false,
        invokedCommand := true, effectiveJob := job } := by
    unfold resolveJobArg
    rcases hcmd with h | h <;>
      simp [h, hnojobs, hjob]
  rw [hres]
  refine ⟨rfl, rfl, rfl, rfl, ?_⟩
  unfold selectLaunchConfig
  rw [hnojobs]

def c9entry : ConfigEntry :=
  { base := { name := "base9", bin := "b9/bbl", img := none, baseImg := none,
              linuxConfig := none, initramfs := false, distro := "br", files := none,
              hostInit := none, init := none, runSpec := none, cfgFile := none,
              workdir := "w" },
    jobs := none }

/-- Witness for claim C9 at a concrete jobless config with a `build`
command requesting job `j1`. -/
theorem main_missing_jobs_witness :
    (resolveJobArg "build" "j1" c9entry).printedJobError = true ∧
    (resolveJobArg "build" "j1" c9entry).printedHelp = true ∧
    (resolveJobArg "build" "j1" c9entry).exited = false ∧
    (resolveJobArg "build" "j1" c9entry).invokedCommand = true ∧
    selectLaunchConfig c9entry ((resolveJobArg "build" "j1" c9entry).effectiveJob) =
      Except.ok c9entry.base :=
  main_missing_jobs "build" "j1" c9entry (Or.inl rfl) (by decide) rfl

def c7both : WorkloadConfig :=
  { name := "bare-with-linux", bin := "b7/bbl", img := none, baseImg := none,
    linuxConfig := some "b7/linux-config", initramfs := false, distro := "bare",
    files := none, hostInit := none, init := none, runSpec := none,
    cfgFile := none, workdir := "w" }

/-- Claim C7 counterexample: a config on which both conditions hold
(`linux-config` present and `distro == bare`), so that the claimed
exactly-one condition fails, yet `makeBin` succeeds and produces a
binary rather than raising. -/
theorem makeBin_both_conditions_ok :
    c7both.linuxConfig.isSome = true ∧ c7both.distro = "bare" ∧
    makeBin c7both false = Except.ok (BinResult.binBuilt "b7/bbl") :=
  ⟨rfl, rfl, rfl⟩

/-- Claim C7 (amended): `makeBin` (non-initramfs) raises exactly when
neither of {`linux-config` present, `distro == bare`} holds — at least
one suffices, both may hold together; and whenever `linux-config` is
absent, no binary is produced. -/
theorem makeBin_fail_iff (config : WorkloadConfig) :
    (isError (makeBin config false) = true ↔
      (config.linuxConfig = none ∧ config.distro ≠ "bare")) ∧
    (∀ r, makeBin config false = Except.ok r → config.linuxConfig = none →
      r = BinResult.prebuiltAssumed) := by
  constructor
  · unfold makeBin
    cases h : config.linuxConfig with
    | none =>
        by_cases hd : config.distro = "bare" <;> simp [hd, isError]
    | some lc => simp [isError, h]
  · intro r hr hlc
    unfold makeBin at hr
    rw [hlc] at hr
    by_cases hd : config.distro = "bare"
    · rw [if_pos hd] at hr
      exact (Except.ok.inj hr).symm
    · rw [if_neg hd] at hr
      exact Except.noConfusion hr

def c7bad : WorkloadConfig :=
  { name := "no-way", bin := "b7b/bbl", img := none, baseImg := none,
    linuxConfig := none, initramfs := false, distro := "br", files := none,
    hostInit := none, init := none, runSpec := none, cfgFile := none, workdir := "w" }

/-- Witness for the amended claim C7 at a concrete config with no
linux config and a non-bare distro. -/
theorem makeBin_fail_iff_witness :
    isError (makeBin c7bad false) = true :=
  (makeBin_fail_iff c7bad).1.mpr ⟨rfl, by decide⟩

def c4meta : WorkloadConfig :=
  { name := "meta-only", bin := "m4/bbl", img := none, baseImg := none,
    linuxConfig := none, initramfs := false, distro := "br", files := none,
    hostInit := none, init := none, runSpec := none, cfgFile := none, workdir := "w" }

/-- Claim C4 counterexample: a workload with neither an `img` key nor a
way to build a binary (no `linux-config`, distro not `bare`) is not
skipped: `addDep` still emits its binary task, so the contributed node
list is non-empty. -/
theorem addDep_metadata_counterexample :
    c4meta.img = none ∧ c4meta.linuxConfig = none ∧ c4meta.distro ≠ "bare" ∧
    addDep fsEmpty c4meta = Except.ok [binTask c4meta] ∧
    ¬ addDep fsEmpty c4meta = Except.ok [] := by
  refine ⟨rfl, rfl, by decide, rfl, ?_⟩
  intro h
  rw [show addDep fsEmpty c4meta = Except.ok [binTask c4meta] from rfl] at h
  simp at h

/-- Claim C4 (amended): a workload with neither an `img` key nor a way
to build a binary (and without the `initramfs` key) contributes exactly
one node, its unconditional binary node — it is not silently skipped —
and that node's build action raises if it is ever executed. -/
theorem addDep_metadata_only (fs : Filesystem) (config : WorkloadConfig)
    (himg : config.img = none) (hramfs : config.initramfs = false)
    (hlc : config.linuxConfig = none) (hd : config.distro ≠ "bare") :
    addDep fs config = Except.ok [binTask config] ∧
    isError (makeBin config false) = true := by
  constructor
  · unfold addDep
    rw [hramfs]
    simp [imageTasks, himg]
  · unfold makeBin
    rw [hlc]
    simp [isError, hd]

/-- Witness for the amended claim C4 at a concrete metadata-only
config. -/
theorem addDep_metadata_only_witness :
    addDep fsEmpty c4meta = Except.ok [binTask c4meta] ∧
    isError (makeBin c4meta false) = true :=
  addDep_metadata_only fsEmpty c4meta rfl rfl rfl (by decide)

theorem mem_optSingleton {p : String} {o : Option String} :
    p ∈ (match o with | some b => [b] | none => ([] : List String)) ↔ o = some p := by
  cases o <;> simp [eq_comm]

theorem mem_overlayDeps {fs : Filesystem} {fl : List FileSpec} {p : String} :
    p ∈ overlayDeps fs fl ↔ ∃ f ∈ fl, p ∈ expandSpec fs f := by
  unfold overlayDeps
  simp [List.mem_flatten]

theorem isImageTask_binTask (c : WorkloadConfig) : isImageTask (binTask c) = false := rfl

theorem isImageTask_initramfsTask (c : WorkloadConfig) (i : String) :
    isImageTask (initramfsTask c i) = false := rfl

theorem isImageTask_imageTask (fs : Filesystem) (c : WorkloadConfig) (i : String) :
    isImageTask (imageTask fs c i) = true := rfl

/-- Claim C2: for a config with an `img` key (and its config-identity
file, which the external config layer attaches to every resolved
descriptor), `addDep` emits exactly one image node; its file-deps are
exactly the base image (when present), the recursive expansion of
every overlay source, the init script (when present), the run-spec
script path (when present and a path), and the config-identity file;
its task-deps are exactly the base-image node (when present) plus the
binary node of the config precisely when `init` is present. -/
theorem addDep_image_node (fs : Filesystem) (config : WorkloadConfig) (i cf : String)
    (himg : config.img = some i) (hcf : config.cfgFile = some cf) :
    (∃ ts, addDep fs config = Except.ok ts ∧
      ts.filter isImageTask = [imageTask fs config i]) ∧
    (∀ p, p ∈ (imageTask fs config i).file_dep ↔
      (config.baseImg = some p ∨
       (∃ fl, config.files = some fl ∧ ∃ f ∈ fl, p ∈ expandSpec fs f) ∨
       config.init = some p ∨
       (∃ rs, config.runSpec = some rs ∧ rs.path = some p) ∨
       p = cf)) ∧
    (∀ t, t ∈ (imageTask fs config i).task_dep ↔
      (config.baseImg = some t ∨ (config.init.isSome = true ∧ t = config.bin))) := by
  refine ⟨?_, ?_, ?_⟩
  · unfold addDep
    by_cases hr : config.initramfs = true
    · rw [if_pos hr, himg]
      refine ⟨[binTask config, initramfsTask config i] ++ imageTasks fs config, rfl, ?_⟩
      simp [imageTasks, himg, List.filter, isImageTask_binTask,
        isImageTask_initramfsTask, isImageTask_imageTask]
    · rw [if_neg hr]
      refine ⟨[binTask config] ++ imageTasks fs config, rfl, ?_⟩
      simp [imageTasks, himg, List.filter, isImageTask_binTask, isImageTask_imageTask]
  · intro p
    show p ∈ imageFileDeps fs config ↔ _
    unfold imageFileDeps
    rw [hcf]
    cases hfl : config.files with
    | none =>
        cases hrs : config.runSpec with
        | none => simp [mem_optSingleton]
        | some rs0 =>
            cases hp : rs0.path <;>
              simp [hp, mem_optSingleton, eq_comm]
    | some fl0 =>
        cases hrs : config.runSpec with
        | none => simp [mem_optSingleton, mem_overlayDeps]
        | some rs0 =>
            cases hp : rs0.path <;>
              simp [hp, mem_optSingleton, mem_overlayDeps, eq_comm]
  · intro t
    show t ∈ imageTaskDeps config ↔ _
    unfold imageTaskDeps
    cases hin : config.init <;> simp [mem_optSingleton]

def fs2w : Filesystem :=
  { isDir := fun s => s == "ovdir",
    walkFiles := fun s => if s == "ovdir" then ["ovdir/a.txt", "ovdir/sub/b.txt"] else [],
    fileExists := fun _ => true }

def c2w : WorkloadConfig :=
  { name := "w2", bin := "w2/bbl", img := some "w2/rootfs.img",
    baseImg := some "base/rootfs.img", linuxConfig := some "w2/linux-config",
    initramfs := false, distro := "br",
    files := some [{ src := "ovdir", dst := "/etc" }, { src := "one.txt", dst := "/root" }],
    hostInit := none, init := some "w2/init.sh",
    runSpec := some { command := none, path := some "w2/run.sh" },
    cfgFile := some "w2.json", workdir := "w2" }

/-- Witness for claim C2 at a concrete config with a directory overlay,
an init script and a path-based run spec: a walked file is a file-dep
and the binary node is a task-dep. -/
theorem addDep_image_node_witness :
    ("ovdir/sub/b.txt" ∈ (imageTask fs2w c2w "w2/rootfs.img").file_dep) ∧
    ("w2/bbl" ∈ (imageTask fs2w c2w "w2/rootfs.img").task_dep) ∧
    ("base/rootfs.img" ∈ (imageTask fs2w c2w "w2/rootfs.img").task_dep) := by
  have h := addDep_image_node fs2w c2w "w2/rootfs.img" "w2.json" rfl rfl
  refine ⟨?_, ?_, ?_⟩
  · refine (h.2.1 "ovdir/sub/b.txt").mpr (Or.inr (Or.inl ?_))
    refine ⟨_, rfl, { src := "ovdir", dst := "/etc" }, by simp, ?_⟩
    show "ovdir/sub/b.txt" ∈ expandSpec fs2w { src := "ovdir", dst := "/etc" }
    simp [expandSpec, fs2w]
  · exact (h.2.2 "w2/bbl").mpr (Or.inr ⟨rfl, rfl⟩)
  · exact (h.2.2 "base/rootfs.img").mpr (Or.inl rfl)

/-- Claim C3: the graph builder emits an initramfs-binary node only
when the `initramfs` key is present and `img` is present (when
`initramfs` is present without an image the `KeyError` aborts
`addDep` before any such node is appended); that node's file-deps are
exactly the image plus the linux config when present, and its task-deps
are exactly the image node. -/
theorem addDep_initramfs_node (fs : Filesystem) (config : WorkloadConfig)
    (ts : List BuildTask) (node : BuildTask)
    (hok : addDep fs config = Except.ok ts) (hmem : node ∈ ts)
    (hkind : isInitramfsTask node = true) :
    config.initramfs = true ∧
    ∃ i, config.img = some i ∧
      node.name = config.bin ++ "-initramfs" ∧
      node.file_dep = [i] ++ (match config.linuxConfig with
                              | some lc => [lc]
                              | none => []) ∧
      node.task_dep = [i] := by
  unfold addDep at hok
  by_cases hr : config.initramfs = true
  · rw [if_pos hr] at hok
    cases hi : config.img with
    | none =>
        rw [hi] at hok
        exact Except.noConfusion hok
    | some i =>
        rw [hi] at hok
        have hts : [binTask config, initramfsTask config i] ++ imageTasks fs config = ts :=
          Except.ok.inj hok
        rw [← hts] at hmem
        refine ⟨hr, i, rfl, ?_⟩
        rcases List.mem_append.mp hmem with h2 | h3
        · rcases List.mem_cons.mp h2 with hb | h2b
          · rw [hb] at hkind
            exact Bool.noConfusion hkind
          · rcases List.mem_cons.mp h2b with hini | hnil
            · rw [hini]
              exact ⟨rfl, rfl, rfl⟩
            · exact absurd hnil (List.not_mem_nil node)
        · unfold imageTasks at h3
          rw [hi] at h3
          rcases List.mem_cons.mp h3 with him | hnil
          · rw [him] at hkind
            exact Bool.noConfusion hkind
          · exact absurd hnil (List.not_mem_nil node)
  · rw [if_neg hr] at hok
    have hts : [binTask config] ++ imageTasks fs config = ts := Except.ok.inj hok
    rw [← hts] at hmem
    exfalso
    rcases List.mem_append.mp hmem with h2 | h3
    · rcases List.mem_cons.mp h2 with hb | hnil
      · rw [hb] at hkind
        exact Bool.noConfusion hkind
      · exact absurd hnil (List.not_mem_nil node)
    · unfold imageTasks at h3
      cases hi : config.img with
      | none =>
          rw [hi] at h3
          exact absurd h3 (List.not_mem_nil node)
      | some i =>
          rw [hi] at h3
          rcases List.mem_cons.mp h3 with him | hnil
          · rw [him] at hkind
            exact Bool.noConfusion hkind
          · exact absurd hnil (List.not_mem_nil node)

def c3w : WorkloadConfig :=
  { name := "w3", bin := "w3/bbl", img := some "w3/rootfs.img", baseImg := some "base.img",
    linuxConfig := some "w3/linux-config", initramfs := true, distro := "br",
    files := none, hostInit := none, init := none, runSpec := none,
    cfgFile := some "w3.json", workdir := "w3" }

/-- Witness for claim C3 at a concrete initramfs config with an
image. -/
theorem addDep_initramfs_node_witness :
    c3w.initramfs = true ∧
    (initramfsTask c3w "w3/rootfs.img").file_dep = ["w3/rootfs.img", "w3/linux-config"] ∧
    (initramfsTask c3w "w3/rootfs.img").task_dep = ["w3/rootfs.img"] := by
  have h := addDep_initramfs_node fsEmpty c3w
      ([binTask c3w, initramfsTask c3w "w3/rootfs.img"] ++ imageTasks fsEmpty c3w)
      (initramfsTask c3w "w3/rootfs.img") rfl
      (List.mem_append_left _ (List.mem_cons_of_mem _ (List.mem_cons_self _ _))) rfl
  obtain ⟨h1, i, hi, hname, hfd, htd⟩ := h
  have hi2 : (some "w3/rootfs.img" : Option String) = some i := hi
  injection hi2 with hi3
  refine ⟨h1, ?_, ?_⟩
  · rw [hfd, ← hi3]
    rfl
  · rw [htd, ← hi3]

theorem hostInitStep_ok (fs : Filesystem) (config : WorkloadConfig) (evs : List Event)
    (h : hostInitStep fs config = Except.ok evs) : evs = hostSeg config := by
  unfold hostInitStep at h
  split at h
  · next hh =>
      simp only [hostSeg, hh]
      exact (Except.ok.inj h).symm
  · next hs hh =>
      simp only [hostSeg, hh]
      by_cases hex : fs.fileExists hs = true
      · rw [if_pos hex] at h
        exact (Except.ok.inj h).symm
      · rw [if_neg hex] at h
        exact Except.noConfusion h

theorem filesStep_eq (config : WorkloadConfig) (img : String) (st : ImageState) :
    (filesStep config img st).fst = filesSeg config img ∧
    (filesStep config img st).snd.bootHook = st.bootHook := by
  cases h : config.files <;>
    simp [filesStep, filesSeg, h, applyFilesImage]

theorem targetInitStep_ok (fs : Filesystem) (config : WorkloadConfig) (img : String)
    (st : ImageState) (p : List Event × ImageState)
    (h : targetInitStep fs config img st = Except.ok p) :
    p.fst = initSeg config img ∧
    p.snd.bootHook = (match config.init with
                      | some _ => none
                      | none => st.bootHook) := by
  unfold targetInitStep at h
  split at h
  · next hin =>
      simp only [initSeg, hin]
      rw [← Except.ok.inj h]
      exact ⟨rfl, rfl⟩
  · next s hin =>
      simp only [initSeg, hin]
      by_cases hex : fs.fileExists s = true
      · rw [if_pos hex] at h
        rw [← Except.ok.inj h]
        exact ⟨rfl, rfl⟩
      · rw [if_neg hex] at h
        exact Except.noConfusion h

theorem runSpecStep_ok (fs : Filesystem) (config : WorkloadConfig) (img : String)
    (st : ImageState) (p : List Event × ImageState)
    (h : runSpecStep fs config img st = Except.ok p) :
    p.fst = runSegOf config img ∧
    p.snd.bootHook = (match config.runSpec with
                      | some spec =>
                          (match resolveRunSpec spec with
                           | Except.ok sp => some sp
                           | Except.error _ => none)
                      | none => st.bootHook) := by
  unfold runSpecStep at h
  split at h
  · next hrs =>
      simp only [runSegOf, hrs]
      rw [← Except.ok.inj h]
      exact ⟨rfl, rfl⟩
  · next spec hrs =>
      simp only [runSegOf, hrs]
      split at h
      · next e hres =>
          exact Except.noConfusion h
      · next sp hres =>
          simp only [hres]
          by_cases hex : fs.fileExists sp = true
          · rw [if_pos hex] at h
            rw [← Except.ok.inj h]
            exact ⟨rfl, rfl⟩
          · rw [if_neg hex] at h
            exact Except.noConfusion h

/-- Decomposition of every successful `makeImage` run: the keys
`base-img` and `img` were present, the event trace is the seed copy
followed by the optional host-init, file-overlay, target-init and
run-spec segments in that order, and the delivered boot hook is
`finalBootHook`. -/
theorem makeImage_ok (fs : Filesystem) (config : WorkloadConfig) (baseImage : ImageState)
    (evs : List Event) (st : ImageState)
    (h : makeImage fs config baseImage = Except.ok (evs, st)) :
    ∃ b i, config.baseImg = some b ∧ config.img = some i ∧
      evs = [Event.copyBase b i] ++ hostSeg config ++ filesSeg config i
            ++ initSeg config i ++ runSegOf config i ∧
      st.bootHook = finalBootHook config baseImage := by
  unfold makeImage at h
  split at h
  · next b i hb hi =>
      split at h
      · next e h1 =>
          exact Except.noConfusion h
      · next e1 h1 =>
          split at h
          next e2 s2 h2 =>
          split at h
          · next e h3 =>
              exact Except.noConfusion h
          · next e3 s3 h3 =>
              split at h
              · next e h4 =>
                  exact Except.noConfusion h
              · next e4 s4 h4 =>
                  have hpair := Except.ok.inj h
                  injection hpair with hevs hst
                  have he1 : e1 = hostSeg config :=
                    hostInitStep_ok fs config e1 h1
                  have hf := filesStep_eq config i baseImage
                  have he2 : e2 = filesSeg config i := by
                    rw [← hf.1, h2]
                  have hs2 : s2.bootHook = baseImage.bootHook := by
                    rw [← hf.2, h2]
                  have ht := targetInitStep_ok fs config i s2 (e3, s3) h3
                  have hr := runSpecStep_ok fs config i s3 (e4, s4) h4
                  have he3 : e3 = initSeg config i := ht.1
                  have he4 : e4 = runSegOf config i := hr.1
                  refine ⟨b, i, hb, hi, ?_, ?_⟩
                  · rw [← hevs, he1, he2, he3, he4]
                  · rw [← hst]
                    have h4h := hr.2
                    cases hrs : config.runSpec with
                    | some spec =>
                        rw [hrs] at h4h
                        simp only [finalBootHook, hrs]
                        exact h4h
                    | none =>
                        rw [hrs] at h4h
                        have h3h := ht.2
                        cases hin : config.init with
                        | some s =>
                            rw [hin] at h3h
                            simp only [finalBootHook, hrs, hin]
                            rw [h4h]
                            exact h3h
                        | none =>
                            rw [hin] at h3h
                            simp only [finalBootHook, hrs, hin]
                            rw [h4h, h3h]
                            exact hs2
  · next hb2 =>
      exact Except.noConfusion h

/-- Claim C5: within one image node the pipeline states execute
strictly in the order seed copy, host-init, file-overlay, target-init,
run-spec install; each state after the seed appears in the trace
exactly when its config field is set, and no state appears out of this
order or more than once. -/
theorem makeImage_state_order (fs : Filesystem) (config : WorkloadConfig)
    (baseImage : ImageState) (evs : List Event) (st : ImageState)
    (h : makeImage fs config baseImage = Except.ok (evs, st)) :
    ∃ b i, config.baseImg = some b ∧ config.img = some i ∧
      evs = [Event.copyBase b i] ++ hostSeg config ++ filesSeg config i
            ++ initSeg config i ++ runSegOf config i := by
  obtain ⟨b, i, hb, hi, hevs, _⟩ := makeImage_ok fs config baseImage evs st h
  exact ⟨b, i, hb, hi, hevs⟩

def c5w : WorkloadConfig :=
  { name := "w5", bin := "w5/bbl", img := some "w5.img", baseImg := some "b5.img",
    linuxConfig := some "w5/linux-config", initramfs := false, distro := "br",
    files := none, hostInit := none, init := none,
    runSpec := some { command := none, path := some "r5.sh" },
    cfgFile := some "w5.json", workdir := "w5" }

def image0 : ImageState := { bootHook := none, extraFiles := [] }

def c5wTrace : List Event :=
  [Event.copyBase "b5.img" "w5.img", Event.overlayApplied "w5.img" (some "r5.sh")]

def c5wFinal : ImageState := { bootHook := some "r5.sh", extraFiles := [] }

/-- Witness for claim C5 at a concrete config whose host-init,
file-overlay and target-init states are skipped and whose run-spec
state runs. -/
theorem makeImage_state_order_witness :
    makeImage fsAll c5w image0 = Except.ok (c5wTrace, c5wFinal) ∧
    c5wTrace = [Event.copyBase "b5.img" "w5.img"] ++ hostSeg c5w ++ filesSeg c5w "w5.img"
      ++ initSeg c5w "w5.img" ++ runSegOf c5w "w5.img" := by
  refine ⟨rfl, ?_⟩
  obtain ⟨b, i, hb, hi, hevs⟩ :=
    makeImage_state_order fsAll c5w image0 c5wTrace c5wFinal rfl
  have hb2 : (some "b5.img" : Option String) = some b := hb
  have hi2 : (some "w5.img" : Option String) = some i := hi
  injection hb2 with hb3
  injection hi2 with hi3
  rw [← hb3, ← hi3] at hevs
  exact hevs

/-- Claim C1: spec-modelled boot-script overlays (`none` clears the
hook).  When `init` is set, a successful `makeImage` applies the init
overlay, boots the emulator exactly once, then applies the clearing
overlay `generateBootScriptOverlay(None)`; the delivered image ends
with no boot hook when `runSpec` is absent (in particular never the
target-init hook), and with the resolved run-spec hook when `runSpec`
is present. -/
theorem countP_hostSeg (c : WorkloadConfig) :
    (hostSeg c).countP isLaunchEvent = 0 := by
  cases h : c.hostInit <;> simp [hostSeg, h, isLaunchEvent]

theorem countP_filesSeg (c : WorkloadConfig) (i : String) :
    (filesSeg c i).countP isLaunchEvent = 0 := by
  cases h : c.files <;> simp [filesSeg, h, isLaunchEvent]

theorem countP_runSegOf (c : WorkloadConfig) (i : String) :
    (runSegOf c i).countP isLaunchEvent = 0 := by
  cases h : c.runSpec with
  | none => simp [runSegOf, h]
  | some spec =>
      cases hres : resolveRunSpec spec <;> simp [runSegOf, h, hres, isLaunchEvent]

theorem countP_initSeg_some (c : WorkloadConfig) (i s : String) (h : c.init = some s) :
    (initSeg c i).countP isLaunchEvent = 1 := by
  simp [initSeg, h, isLaunchEvent]

theorem makeImage_target_init_once (fs : Filesystem) (config : WorkloadConfig)
    (baseImage : ImageState) (evs : List Event) (st : ImageState) (s : String)
    (h : makeImage fs config baseImage = Except.ok (evs, st))
    (hinit : config.init = some s) :
    ∃ i, config.img = some i ∧
      evs.countP isLaunchEvent = 1 ∧
      List.IsInfix
        [Event.overlayApplied i (generateBootScriptOverlay (some s)),
         Event.qemuLaunched config.bin,
         Event.overlayApplied i (generateBootScriptOverlay none)] evs ∧
      (config.runSpec = none → st.bootHook = none) ∧
      (∀ spec sp, config.runSpec = some spec → resolveRunSpec spec = Except.ok sp →
        st.bootHook = some sp) := by
  obtain ⟨b, i, hb, hi, hevs, hhook⟩ := makeImage_ok fs config baseImage evs st h
  refine ⟨i, hi, ?_, ?_, ?_, ?_⟩
  · rw [hevs]
    rw [List.countP_append, List.countP_append, List.countP_append, List.countP_append]
    rw [countP_hostSeg, countP_filesSeg, countP_runSegOf,
      countP_initSeg_some config i s hinit]
    simp [List.countP_cons, isLaunchEvent]
  · refine ⟨[Event.copyBase b i] ++ hostSeg config ++ filesSeg config i,
      runSegOf config i, ?_⟩
    rw [hevs]
    simp [initSeg, hinit, List.append_assoc]
  · intro hrs
    rw [hhook]
    simp [finalBootHook, hrs, hinit]
  · intro spec sp hspec hres
    rw [hhook]
    simp [finalBootHook, hspec, hres]

def c1w : WorkloadConfig :=
  { name := "w1", bin := "w1/bbl", img := some "w1.img", baseImg := some "b1.img",
    linuxConfig := some "w1/linux-config", initramfs := false, distro := "br",
    files := some [{ src := "w1/overlay", dst := "/" }],
    hostInit := some "w1/host.sh", init := some "w1/init.sh",
    runSpec := some { command := some "echo hi", path := none },
    cfgFile := some "w1.json", workdir := "w1" }

def c1wTrace : List Event :=
  [Event.copyBase "b1.img" "w1.img",
   Event.hostInitRun "w1/host.sh",
   Event.filesApplied "w1.img" [{ src := "w1/overlay", dst := "/" }],
   Event.overlayApplied "w1.img" (some "w1/init.sh"),
   Event.qemuLaunched "w1/bbl",
   Event.overlayApplied "w1.img" none,
   Event.overlayApplied "w1.img" (some (genRunScript "echo hi"))]

def c1wFinal : ImageState :=
  { bootHook := some (genRunScript "echo hi"),
    extraFiles := [{ src := "w1/overlay", dst := "/" }] }

/-- Witness for claim C1 at a concrete config with an init script and
an inline run command: the emulator boots exactly once and the
delivered boot hook is the generated run script, not the init
script. -/
theorem makeImage_target_init_once_witness :
    makeImage fsAll c1w image0 = Except.ok (c1wTrace, c1wFinal) ∧
    c1wTrace.countP isLaunchEvent = 1 ∧
    c1wFinal.bootHook = some (genRunScript "echo hi") := by
  have h := makeImage_target_init_once fsAll c1w image0 c1wTrace c1wFinal
      "w1/init.sh" rfl rfl
  obtain ⟨i, hi, hcount, hinf, hnone, hsome⟩ := h
  exact ⟨rfl, hcount,
    hsome { command := some "echo hi", path := none } (genRunScript "echo hi") rfl rfl⟩

end SwManager
